import Mathlib

/-!
Verification of the RN2483 LoRa driver (rn2483.py).

The driver is a single-threaded command/response protocol engine over a
serial link.  We embed it shallowly: the module's response stream is a
list of `Option String` (with `none` standing for a read that times out,
i.e. the code's `RESP_TIMEOUT = -1` sentinel; lines are modelled after
the `strip('\r\n')` applied by `_read`), and every driver function is a
state transformer that threads this stream together with instrumentation
logs (commands written, reads performed with their timeout argument,
sleeps) and the module-level globals `_appeui .. _ar`.  Exceptions
(`rn2483Exception`, and the Python `TypeError`/`AttributeError`/
`ValueError` that some paths can raise) are modelled with `Except`.
-/

namespace RN2483

/-- Exceptions the embedded code can raise.  `rn2483Exception` is the
driver's own exception; the other three model the Python runtime errors
that specific code paths can produce. -/
inductive Err where
  | rn2483Exception
  | typeError
  | attributeError
  | valueError
deriving DecidableEq, Repr

/-- A Python value as it appears in this driver: `None`, an int (only the
`RESP_TIMEOUT = -1` sentinel and `_retx` occur), or a string. -/
inductive PyVal where
  | vnone
  | vint (n : Int)
  | vstr (s : String)
deriving DecidableEq, Repr

/-- Driver state: the pending module responses (`inp`, head consumed
first; `none` = the read times out; once exhausted, every further read
times out), instrumentation logs (`sent` commands, `reads` as
(timeout-argument, result) pairs, `sleeps` in ms), and the module-level
globals of rn2483.py. -/
structure St where
  inp : List (Option String)
  sent : List String
  reads : List (Nat × PyVal)
  sleeps : List Nat
  appeui : PyVal := .vnone
  appkey : PyVal := .vnone
  deveui : PyVal := .vnone
  pwridx : PyVal := .vnone
  adr : PyVal := .vnone
  rx2 : PyVal := .vnone
  retx : PyVal := .vnone
  ar : PyVal := .vnone
deriving DecidableEq, Repr

/-- The driver computation monad: state passing plus exceptions, with the
state preserved on the error path (so that instrumentation logs survive a
raise, as they do in Python). -/
def M (α : Type) : Type := St → Except Err α × St

instance : Monad M where
  pure a := fun st => (Except.ok a, st)
  bind m f := fun st =>
    match m st with
    | (Except.ok a, st1) => f a st1
    | (Except.error e, st1) => (Except.error e, st1)

/-- Model of `raise e`. -/
def throwE {α : Type} (e : Err) : M α := fun st => (Except.error e, st)

def getSt : M St := fun st => (Except.ok st, st)

def modifySt (f : St → St) : M Unit := fun st => (Except.ok (), f st)

/-- Result of one `_read`: the next pending response line, or the
`RESP_TIMEOUT` (-1) sentinel when it is a timeout / nothing is pending. -/
def rdOf : Option (Option String) → PyVal
  | some (some s) => .vstr s
  | _ => .vint (-1)

/-- Model of `_read(timeout=2000)`: consume the next module response; on timeout
return `RESP_TIMEOUT = -1`.  The (timeout, result) pair is logged. -/
def _read (timeout : Nat := 2000) : M PyVal := fun st =>
  (Except.ok (rdOf st.inp.head?),
   { st with inp := st.inp.tail,
             reads := st.reads ++ [(timeout, rdOf st.inp.head?)] })

/-- Model of `_send(cmd, discard_resp=False)`: write the command line; if
`discard_resp`, additionally perform one default-timeout `_read` and
discard its result. -/
def _send (cmd : String) (discard_resp : Bool := false) : M Unit := fun st =>
  let st1 := { st with sent := st.sent ++ [cmd] }
  if discard_resp then (Except.ok (), (_read 2000 st1).2)
  else (Except.ok (), st1)

/-- Model of `sleep(ms)` (logged only). -/
def _sleep (ms : Nat) : M Unit :=
  modifySt fun st => { st with sleeps := st.sleeps ++ [ms] }

/-- Python `s.startswith(pre)` character comparison on char lists. -/
def startsWithL : List Char → List Char → Bool
  | [], _ => true
  | _ :: _, [] => false
  | p :: ps, c :: cs => p == c && startsWithL ps cs

/-- Model of `v.startswith(pre)`: only strings have `startswith`; on the int
`RESP_TIMEOUT` sentinel (or `None`) Python raises `AttributeError`. -/
def pyStartswith (v : PyVal) (pre : String) : M Bool :=
  match v with
  | .vstr s => pure (startsWithL pre.data s.data)
  | _ => throwE .attributeError

/-- Python string concatenation `s + v`: a `TypeError` unless `v` is a
string. -/
def pyAddStr (s : String) (v : PyVal) : M String :=
  match v with
  | .vstr t => pure (s ++ t)
  | _ => throwE .typeError

/-- Python `str(v)`. -/
def pyStr : PyVal → String
  | .vnone => "None"
  | .vint n => toString n
  | .vstr s => s

/-- Python string-strippable whitespace. -/
def isPyWs (c : Char) : Bool :=
  c == ' ' || c == '\t' || c == '\n' || c == '\r' || c == '\x0b' || c == '\x0c'

/-- Decimal digit run for Python `int(s)` (plain digit runs; exotic
forms such as underscore grouping are not exercised by this driver). -/
def parseDigits10 : List Char → Nat → Option Nat
  | [], acc => some acc
  | c :: rest, acc =>
      if c.isDigit then parseDigits10 rest (acc * 10 + (c.toNat - 48)) else none

/-- Python `int(s)` on a string: optional surrounding whitespace,
optional sign, then a nonempty run of decimal digits. -/
def pyIntOfString (s : String) : Option Int :=
  let cs := ((s.data.dropWhile isPyWs).reverse.dropWhile isPyWs).reverse
  match cs with
  | '+' :: rest =>
      if rest.isEmpty then none else (parseDigits10 rest 0).map Int.ofNat
  | '-' :: rest =>
      if rest.isEmpty then none else (parseDigits10 rest 0).map fun n => -(n : Int)
  | [] => none
  | rest => (parseDigits10 rest 0).map Int.ofNat

/-- Python `int(v)`: ints pass through, strings are parsed (ValueError
on failure), `None` is a TypeError. -/
def pyInt (v : PyVal) : M Int :=
  match v with
  | .vint n => pure n
  | .vstr s =>
      match pyIntOfString s with
      | some n => pure n
      | none => throwE .valueError
  | .vnone => throwE .typeError

/-! ## Hex codec (`_2str`, `_base16encode`, `_base16tobytearray`) -/

/-- Hex digit value, as accepted by Python `int(_, 16)`. -/
def hexVal (c : Char) : Option Nat :=
  if '0' ≤ c ∧ c ≤ '9' then some (c.toNat - '0'.toNat)
  else if 'a' ≤ c ∧ c ≤ 'f' then some (c.toNat - 'a'.toNat + 10)
  else if 'A' ≤ c ∧ c ≤ 'F' then some (c.toNat - 'A'.toNat + 10)
  else none

/-- Python `int(s, 16)` on the two-character slices taken by
`_base16tobytearray`: two hex digits, or one hex digit with a
whitespace character on either side, or a sign followed by one hex
digit; anything else is a ValueError (`none`). -/
def parse2 (c1 c2 : Char) : Option Int :=
  match hexVal c1, hexVal c2 with
  | some d1, some d2 => some ((16 * d1 + d2 : Nat) : Int)
  | some d1, none => if isPyWs c2 then some ((d1 : Nat) : Int) else none
  | none, some d2 =>
      if isPyWs c1 then some ((d2 : Nat) : Int)
      else if c1 = '+' then some ((d2 : Nat) : Int)
      else if c1 = '-' then some (-((d2 : Nat) : Int))
      else none
  | none, none => none

/-- Model of `bytearray` cell assignment: the value must be in 0..255, otherwise
Python raises ValueError. -/
def toByteE (v : Int) : Except Err Nat :=
  if 0 ≤ v ∧ v < 256 then Except.ok v.toNat else Except.error Err.valueError

/-- Model of `_2str(r)`: left-pad to two characters with '0' (exactly the source:
return `r` iff it already has length 2, else `'0' + r`). -/
def _2str (r : List Char) : List Char :=
  if r.length = 2 then r else '0' :: r

/-- Zerynth `hex(n, prefix='')`: lowercase hex digits of `n`, no
prefix. -/
def pyHexChars (n : Nat) : List Char := Nat.toDigits 16 n

/-- A transmit payload: Python string (PSTRING) or bytearray
(PBYTEARRAY). -/
inductive Data where
  | pstr (s : String)
  | pbytes (b : List Nat)
deriving DecidableEq, Repr

/-- The per-element loop of `_base16encode` (the `type(data)` test in the
source is constant over the loop, so it is hoisted into
`_base16encode`). -/
def encodeLoop : List Nat → List Char
  | [] => []
  | x :: xs => _2str (pyHexChars x) ++ encodeLoop xs

/-- Model of `_base16encode(data)`: each character (via `ord`) or byte becomes
`_2str(hex(·, prefix=''))`, concatenated in order. -/
def _base16encode : Data → List Char
  | .pstr s => encodeLoop (s.data.map Char.toNat)
  | .pbytes b => encodeLoop b

/-- Model of `_base16tobytearray(data)`: for `i in range(len(data)//2)`, byte `i`
is `int(data[2i:2i+2], 16)`; an odd trailing character is outside every
slice and is silently dropped.  The consecutive two-character slices are
taken here by structural recursion. -/
def _base16tobytearray : List Char → Except Err (List Nat)
  | c1 :: c2 :: rest => do
      let v ← match parse2 c1 c2 with
              | some v => Except.ok v
              | none => Except.error Err.valueError
      let b ← toByteE v
      let bs ← _base16tobytearray rest
      pure (b :: bs)
  | _ => Except.ok []

/-! ## Driver operations -/

/-- Model of `get_hweui()` as called with `ser = None` (the only way this
development calls it: the `ser is not None` re-init branch is never
taken from `config`). -/
def get_hweui : M PyVal := do
  _send "sys get hweui"
  _read 2000

/-- Model of `config(...)`:
identity fields are assigned only when still `None`; a missing device
EUI is fetched from the module; the radio parameters are then reset to
the fixed defaults (the radio-parameter arguments are not read). -/
def config (appeui : PyVal := .vnone) (appkey : PyVal := .vnone)
    (deveui : PyVal := .vnone) (pwridx : PyVal := .vstr "1")
    (adr : PyVal := .vstr "off") (rx2 : PyVal := .vstr "3 869525000")
    (retx : PyVal := .vint 5) (ar : PyVal := .vstr "off") : M Unit := do
  let g ← getSt
  if g.appeui = .vnone then modifySt fun s => { s with appeui := appeui }
  else pure ()
  let g ← getSt
  if g.appkey = .vnone then modifySt fun s => { s with appkey := appkey }
  else pure ()
  let g ← getSt
  if g.deveui = .vnone then
    if deveui = .vnone then do
      let h ← get_hweui
      modifySt fun s => { s with deveui := h }
    else modifySt fun s => { s with deveui := deveui }
  else pure ()
  let _ := (pwridx, adr, rx2, retx, ar)
  modifySt fun s =>
    { s with pwridx := .vstr "1", adr := .vstr "off",
             rx2 := .vstr "3 869525000", retx := .vint 5, ar := .vstr "off" }

/-- Model of `set_retransmissions(n)`: send `mac set retx n` and require an `ok`
acknowledgment. -/
def set_retransmissions (n : PyVal) : M Unit := do
  _send ("mac set retx " ++ pyStr n)
  let r ← _read 2000
  if r ≠ PyVal.vstr "ok" then throwE .rn2483Exception else pure ()

/-- Model of `set_ar(state)`: send the set command (response discarded), read the
value back with `mac get ar`, store it in `_ar`, and raise when the
read-back differs from the requested state. -/
def set_ar (state : PyVal) : M Unit := do
  let c ← pyAddStr "mac set ar " state
  _send c true
  _send "mac get ar"
  let a ← _read 2000
  modifySt fun s => { s with ar := a }
  if a ≠ state then throwE .rn2483Exception else pure ()

/-- The `'mac set ...' + value` send-and-discard idiom of
`set_config`. -/
def sendSet (p : String) (v : PyVal) : M Unit := do
  let c ← pyAddStr p v
  _send c true

/-- Model of `set_config()`: six set commands with discarded responses, then the
checked `set_retransmissions` and `set_ar`, then `mac save`
(discarded). -/
def set_config : M Unit := do
  let g ← getSt
  sendSet "mac set appeui " g.appeui
  sendSet "mac set appkey " g.appkey
  sendSet "mac set deveui " g.deveui
  sendSet "mac set pwridx " g.pwridx
  sendSet "mac set adr " g.adr
  sendSet "mac set rx2 " g.rx2
  let g2 ← getSt
  set_retransmissions g2.retx
  let g3 ← getSt
  set_ar g3.ar
  _send "mac save" true

/-- The `for _ in range(3)` loop of `join()`: dispatch `mac join otaa`
(its immediate response is discarded by `_send`), read the join event
with the extended 30000 ms timeout, and classify it; non-terminal
outcomes sleep 1000 ms and retry. -/
def joinLoop : Nat → M Bool
  | 0 => pure false
  | n + 1 => do
      _send "mac join otaa" true
      let res ← _read 30000
      if res ≠ PyVal.vint (-1) then do
        let acc ← pyStartswith res "accepted"
        if acc then pure true
        else do
          let den ← pyStartswith res "denied"
          if den then pure false
          else do
            _sleep 1000
            joinLoop n
      else do
        _sleep 1000
        joinLoop n

/-- Model of `join()`: MAC reset (response discarded), `set_config()`, then up to
3 join attempts. -/
def join : M Bool := do
  _send "mac reset 868" true
  set_config
  joinLoop 3

/-- Model of `res.split(' ')[-1]`: the segment after the last space (the whole
string when there is no space, empty when the string ends with a
space). -/
def lastField (cs : List Char) : List Char :=
  cs.foldl (fun acc c => if c = ' ' then [] else acc ++ [c]) []

/-- Result of `_tx`: `True`, the `(True, bytearray)` tuple, or the
implicit `None` when the 10-attempt loop falls through. -/
inductive TxResult where
  | tTrue
  | tPair (payload : List Nat)
  | tNone
deriving DecidableEq, Repr

/-- The `for _ in range(10)` loop of `_tx`.  First phase: send and read
with default timeout; `ok` leads to the 30000 ms second-phase read,
`busy` sleeps 1000 ms and retries, anything else raises.  Second phase:
`mac_tx_ok`/`radio_tx_ok` return `True`; a `mac_rx` line returns the
decoded last field; any other line raises `rn2483Exception`; the int
`RESP_TIMEOUT` sentinel fails both `==` comparisons and then
`res.startswith` on an int raises `AttributeError`. -/
def txLoop (cmd : String) : Nat → M TxResult
  | 0 => pure .tNone
  | n + 1 => do
      _send cmd
      let res ← _read 2000
      if res = PyVal.vstr "ok" then do
        let res2 ← _read 30000
        match res2 with
        | .vstr s =>
            if s = "mac_tx_ok" ∨ s = "radio_tx_ok" then pure .tTrue
            else if startsWithL "mac_rx".data s.data then
              match _base16tobytearray (lastField s.data) with
              | Except.ok bs => pure (.tPair bs)
              | Except.error e => throwE e
            else throwE .rn2483Exception
        | _ => throwE .attributeError
      else if res ≠ PyVal.vstr "busy" then throwE .rn2483Exception
      else do
        _sleep 1000
        txLoop cmd n

/-- Model of `_tx(cmd)`. -/
def _tx (cmd : String) : M TxResult := txLoop cmd 10

/-- Model of `tx_uncnf(data)`. -/
def tx_uncnf (data : Data) : M TxResult :=
  _tx ("mac tx uncnf 1 " ++ String.mk (_base16encode data))

/-- Model of `tx_cnf(data)`. -/
def tx_cnf (data : Data) : M TxResult :=
  _tx ("mac tx cnf 1 " ++ String.mk (_base16encode data))

/-- Model of `_pause()`. -/
def _pause : M PyVal := do
  _send "mac pause"
  _read 2000

/-- Model of `_resume()`. -/
def _resume : M PyVal := do
  _send "mac resume"
  _read 2000

/-- Model of `get_snr()`. -/
def get_snr : M Int := do
  let t ← _pause
  if t = PyVal.vstr "0" then throwE .rn2483Exception else pure ()
  _send "radio get snr"
  let snr ← _read 2000
  let res ← _resume
  if res ≠ PyVal.vstr "ok" then throwE .rn2483Exception else pure ()
  pyInt snr

/-- Model of `get_pwr()`. -/
def get_pwr : M Int := do
  let t ← _pause
  if t = PyVal.vstr "0" then throwE .rn2483Exception else pure ()
  _send "radio get pwr"
  let pwr ← _read 2000
  let res ← _resume
  if res ≠ PyVal.vstr "ok" then throwE .rn2483Exception else pure ()
  pyInt pwr

/-! ## Statement-level definitions used by the verification -/

/-- The read outcome is a line starting with `accepted`. -/
def pyAcceptedB : PyVal → Bool
  | .vstr s => startsWithL "accepted".data s.data
  | _ => false

/-- The read outcome is a line starting with `denied`. -/
def pyDeniedB : PyVal → Bool
  | .vstr s => startsWithL "denied".data s.data
  | _ => false

/-- Predicate `Quiet2000 m`: `m` appends to the sent log only commands other than
`mac join otaa`, and appends to the read log only reads performed with
the default 2000 ms timeout.  This holds for all of `set_config` (and
is what lets the join-loop facts lift to `join()`). -/
def Quiet2000 {α : Type} (m : M α) : Prop :=
  ∀ st, ∃ ds dr,
    (m st).2.sent = st.sent ++ ds ∧ (∀ c ∈ ds, c ≠ "mac join otaa") ∧
    (m st).2.reads = st.reads ++ dr ∧ (∀ x ∈ dr, x.1 = 2000)

/-- State after one join attempt whose extended read terminated the loop
(dispatch logged, discarded response and extended read consumed). -/
def joinAttemptSt (st : St) : St :=
  { st with inp := st.inp.tail.tail,
            sent := st.sent ++ ["mac join otaa"],
            reads := st.reads ++ [(2000, rdOf st.inp.head?), (30000, rdOf st.inp.tail.head?)] }

/-- State after one non-terminal join attempt: as `joinAttemptSt`, plus
the fixed 1000 ms backoff sleep. -/
def joinRetrySt (st : St) : St :=
  { joinAttemptSt st with sleeps := st.sleeps ++ [1000] }

/-- State after one `busy` first-phase transmit attempt: command sent,
`busy` consumed, 1000 ms backoff sleep. -/
def txBusyStep (cmd : String) (st : St) : St :=
  { st with inp := st.inp.tail,
            sent := st.sent ++ [cmd],
            reads := st.reads ++ [(2000, PyVal.vstr "busy")],
            sleeps := st.sleeps ++ [1000] }

/-- The consecutive two-character groups examined by the hex decoder (an
odd trailing character belongs to no group). -/
def pairsOf : List Char → List (Char × Char)
  | c1 :: c2 :: rest => (c1, c2) :: pairsOf rest
  | _ => []

/-- The byte a two-character group decodes to, when it parses as a
base-16 int in byte range. -/
def byteOfPair (p : Char × Char) : Option Nat :=
  match parse2 p.1 p.2 with
  | some v => if 0 ≤ v ∧ v < 256 then some v.toNat else none
  | none => none

def pairsBytes : List (Char × Char) → Option (List Nat)
  | [] => some []
  | p :: ps =>
      match byteOfPair p, pairsBytes ps with
      | some b, some bs => some (b :: bs)
      | _, _ => none

/-- Decoder behaviour as the amended specification words it: split the
input into consecutive two-character groups dropping an odd trailing
character, decode every group as a base-16 byte, and raise ValueError
iff some group fails. -/
def base16decodeSpec (cs : List Char) : Except Err (List Nat) :=
  match pairsBytes (pairsOf cs) with
  | some bs => Except.ok bs
  | none => Except.error Err.valueError

/-- The two-character parse of an encoded byte (`none` when the list is
not two characters long). -/
def pairParseOf : List Char → Option Int
  | [a, b] => parse2 a b
  | _ => none

/-- A lowercase hex digit, as produced by the encoder. -/
def isLowerHex (c : Char) : Bool :=
  ('0' ≤ c && c ≤ '9') || ('a' ≤ c && c ≤ 'f')

/-- Fresh driver state with a given pending module-response stream. -/
def mkSt (l : List (Option String)) : St :=
  { inp := l, sent := [], reads := [], sleeps := [] }

/-- Fresh state with string credentials and default radio parameters
already configured (as after `config`), and a given response stream. -/
def cfgSt (l : List (Option String)) : St :=
  { mkSt l with
    appeui := .vstr "AE", appkey := .vstr "AK", deveui := .vstr "DE",
    pwridx := .vstr "1", adr := .vstr "off", rx2 := .vstr "3 869525000",
    retx := .vint 5, ar := .vstr "off" }

/-- State after the `mac reset 868` dispatch at the top of `join()`
(command logged, startup response consumed at default timeout). -/
def resetSt (st : St) : St :=
  { st with sent := st.sent ++ ["mac reset 868"], inp := st.inp.tail,
            reads := st.reads ++ [(2000, rdOf st.inp.head?)] }

/-- State after one transmit attempt whose first-phase read was consumed
(command sent, one default-timeout read logged). -/
def txAttempt1St (cmd : String) (st : St) : St :=
  { st with inp := st.inp.tail, sent := st.sent ++ [cmd],
            reads := st.reads ++ [(2000, rdOf st.inp.head?)] }

/-- State after a transmit attempt acknowledged with `ok` followed by the
extended-timeout second-phase read. -/
def txOkSt (cmd : String) (st : St) : St :=
  { st with inp := st.inp.tail.tail, sent := st.sent ++ [cmd],
            reads := st.reads ++ [(2000, PyVal.vstr "ok"), (30000, rdOf st.inp.tail.head?)] }

/-- Module responses for a join run that is accepted on the first
attempt (startup banner, six discarded set responses, the checked
`retx` ok, the discarded `set ar` response, the `ar` read-back, the
`mac save` response, the discarded join response, the join event). -/
def joinAcceptInp : List (Option String) :=
  [some "RN2483", some "ok", some "ok", some "ok", some "ok", some "ok", some "ok",
   some "ok", some "ok", some "off", some "ok", some "ok", some "accepted"]



/-! ## Symbolic-execution lemmas for the monad -/

theorem run_pure {α : Type} (a : α) (st : St) : (pure a : M α) st = (Except.ok a, st) := rfl

theorem run_bind {α β : Type} (m : M α) (f : α → M β) (st : St) :
    (m >>= f) st =
      match m st with
      | (Except.ok a, st1) => f a st1
      | (Except.error e, st1) => (Except.error e, st1) := rfl

theorem run_throwE {α : Type} (e : Err) (st : St) : (throwE e : M α) st = (Except.error e, st) := rfl

theorem run_getSt (st : St) : getSt st = (Except.ok st, st) := rfl

theorem run_modifySt (f : St → St) (st : St) : modifySt f st = (Except.ok (), f st) := rfl

theorem run_read (t : Nat) (st : St) :
    _read t st =
      (Except.ok (rdOf st.inp.head?),
       { st with inp := st.inp.tail, reads := st.reads ++ [(t, rdOf st.inp.head?)] }) := rfl

theorem run_send_false (cmd : String) (st : St) :
    _send cmd false st = (Except.ok (), { st with sent := st.sent ++ [cmd] }) := rfl

theorem run_send_true (cmd : String) (st : St) :
    _send cmd true st =
      (Except.ok (),
       { st with sent := st.sent ++ [cmd],
                 inp := st.inp.tail,
                 reads := st.reads ++ [(2000, rdOf st.inp.head?)] }) := rfl

theorem run_sleep (ms : Nat) (st : St) :
    _sleep ms st = (Except.ok (), { st with sleeps := st.sleeps ++ [ms] }) := rfl

/-! ## "Quiet" trace predicate

`Quiet2000 m`: `m` appends to the sent log only commands other than
`mac join otaa`, and appends to the read log only reads performed with
the default 2000 ms timeout.  This holds for all of `set_config` (and
is what lets the join-loop facts lift to `join()`). -/

theorem quiet_pure {α : Type} (a : α) : Quiet2000 (pure a : M α) := by
  intro st
  exact ⟨[], [], by simp [run_pure], by simp, by simp [run_pure], by simp⟩

theorem quiet_throwE {α : Type} (e : Err) : Quiet2000 (throwE e : M α) := by
  intro st
  exact ⟨[], [], by simp [run_throwE], by simp, by simp [run_throwE], by simp⟩

theorem quiet_getSt : Quiet2000 getSt := by
  intro st
  exact ⟨[], [], by simp [run_getSt], by simp, by simp [run_getSt], by simp⟩

theorem quiet_modifyG (f : St → St)
    (hs : ∀ st, (f st).sent = st.sent) (hr : ∀ st, (f st).reads = st.reads) :
    Quiet2000 (modifySt f) := by
  intro st
  exact ⟨[], [], by simp [run_modifySt, hs], by simp, by simp [run_modifySt, hr], by simp⟩

theorem quiet_read (t : Nat) (ht : t = 2000) : Quiet2000 (_read t) := by
  intro st
  refine ⟨[], [(t, rdOf st.inp.head?)], by simp [run_read], by simp, by simp [run_read], ?_⟩
  simp [ht]

theorem quiet_send (cmd : String) (b : Bool) (hc : cmd ≠ "mac join otaa") :
    Quiet2000 (_send cmd b) := by
  intro st
  cases b with
  | false =>
      exact ⟨[cmd], [], by simp [run_send_false], by simpa using hc, by simp [run_send_false], by simp⟩
  | true =>
      refine ⟨[cmd], [(2000, rdOf st.inp.head?)], by simp [run_send_true],
        by simpa using hc, by simp [run_send_true], by simp⟩

/-- Lemma: `Quiet2000` composes across `bind`, with a postcondition on the
first computation's results available to the continuation. -/
theorem quiet_bind_post {α β : Type} {m : M α} {f : α → M β} (Q : α → Prop)
    (hm : Quiet2000 m) (hq : ∀ st a st1, m st = (Except.ok a, st1) → Q a)
    (hf : ∀ a, Q a → Quiet2000 (f a)) : Quiet2000 (m >>= f) := by
  intro st
  obtain ⟨ds, dr, h1, h2, h3, h4⟩ := hm st
  rcases hms : m st with ⟨r, st1⟩
  rw [hms] at h1 h3
  cases r with
  | error e =>
      refine ⟨ds, dr, ?_, h2, ?_, h4⟩
      · simp only [run_bind, hms]
        exact h1
      · simp only [run_bind, hms]
        exact h3
  | ok a =>
      obtain ⟨ds2, dr2, g1, g2, g3, g4⟩ := hf a (hq st a st1 hms) st1
      refine ⟨ds ++ ds2, dr ++ dr2, ?_, ?_, ?_, ?_⟩
      · simp only [run_bind, hms]
        rw [g1]
        show st1.sent ++ ds2 = st.sent ++ (ds ++ ds2)
        rw [show st1.sent = st.sent ++ ds from h1, List.append_assoc]
      · intro c hc
        rcases List.mem_append.1 hc with h | h
        · exact h2 c h
        · exact g2 c h
      · simp only [run_bind, hms]
        rw [g3]
        show st1.reads ++ dr2 = st.reads ++ (dr ++ dr2)
        rw [show st1.reads = st.reads ++ dr from h3, List.append_assoc]
      · intro x hx
        rcases List.mem_append.1 hx with h | h
        · exact h4 x h
        · exact g4 x h

theorem quiet_bind {α β : Type} {m : M α} {f : α → M β}
    (hm : Quiet2000 m) (hf : ∀ a, Quiet2000 (f a)) : Quiet2000 (m >>= f) :=
  quiet_bind_post (fun _ => True) hm (fun _ _ _ _ => trivial) (fun a _ => hf a)

/-- Any command built by appending to a literal whose character at index
4 is not `'j'` differs from `"mac join otaa"`. -/
theorem append_ne_join (p t : String) (c : Char)
    (hp : p.data[4]? = some c) (hc : c ≠ 'j') : p ++ t ≠ "mac join otaa" := by
  intro h
  have hd : (p ++ t).data = "mac join otaa".data := by rw [h]
  rw [String.data_append] at hd
  have hlt : 4 < p.data.length := (List.getElem?_eq_some.1 hp).1
  have h4 : (p.data ++ t.data)[4]? = p.data[4]? := List.getElem?_append_left hlt
  rw [hd, hp] at h4
  have hj : ("mac join otaa".data)[4]? = some 'j' := by decide
  rw [hj] at h4
  exact hc (Option.some.inj h4).symm

theorem quiet_sendSet (p : String) (v : PyVal) (c : Char)
    (hp : p.data[4]? = some c) (hc : c ≠ 'j') : Quiet2000 (sendSet p v) := by
  unfold sendSet
  refine quiet_bind_post (fun a => ∃ t, a = p ++ t) ?_ ?_ ?_
  · cases v with
    | vstr t => exact quiet_pure _
    | vnone => exact quiet_throwE _
    | vint n => exact quiet_throwE _
  · intro st a st1 hrun
    cases v with
    | vstr t =>
        refine ⟨t, ?_⟩
        have : (Except.ok (p ++ t), st) = (Except.ok a, st1) := hrun
        exact (Except.ok.inj (congrArg Prod.fst this)).symm
    | vnone => exact absurd hrun (by simp [pyAddStr, run_throwE])
    | vint n => exact absurd hrun (by simp [pyAddStr, run_throwE])
  · rintro a ⟨t, rfl⟩
    exact quiet_send _ _ (append_ne_join p t c hp hc)


/-! ## Join loop characterization -/

theorem joinLoop_succ (n : Nat) (st : St) :
    joinLoop (n + 1) st =
      (if pyAcceptedB (rdOf st.inp.tail.head?) then (Except.ok true, joinAttemptSt st)
       else if pyDeniedB (rdOf st.inp.tail.head?) then (Except.ok false, joinAttemptSt st)
       else joinLoop n (joinRetrySt st)) := by
  rcases h1 : st.inp.tail.head? with _ | os
  · simp [joinLoop, run_bind, run_send_true, run_read, run_sleep, run_pure, rdOf, h1,
      pyAcceptedB, pyDeniedB, joinAttemptSt, joinRetrySt]
  · rcases os with _ | s
    · simp [joinLoop, run_bind, run_send_true, run_read, run_sleep, run_pure, rdOf, h1,
        pyAcceptedB, pyDeniedB, joinAttemptSt, joinRetrySt]
    · simp only [joinLoop, run_bind, run_send_true, run_read, run_sleep, run_pure, rdOf, h1,
        pyAcceptedB, pyDeniedB, joinAttemptSt, joinRetrySt, pyStartswith, ne_eq,
        List.append_assoc, List.singleton_append, List.cons_append, List.nil_append]
      by_cases hacc : startsWithL ['a', 'c', 'c', 'e', 'p', 't', 'e', 'd'] s.data = true
      · simp [hacc, run_bind, run_pure]
      · by_cases hden : startsWithL ['d', 'e', 'n', 'i', 'e', 'd'] s.data = true
        · simp [hacc, hden, run_bind, run_pure]
        · simp [hacc, hden, run_bind, run_pure, run_sleep]

theorem startsWithL_cons {p : Char} {ps cs : List Char}
    (h : startsWithL (p :: ps) cs = true) : ∃ cs1, cs = p :: cs1 := by
  cases cs with
  | nil => simp [startsWithL] at h
  | cons c cs1 =>
      refine ⟨cs1, ?_⟩
      simp only [startsWithL, Bool.and_eq_true, beq_iff_eq] at h
      rw [h.1]

theorem accepted_not_denied {v : PyVal} (h : pyAcceptedB v = true) : pyDeniedB v = false := by
  cases v with
  | vstr s =>
      simp only [pyAcceptedB] at h
      obtain ⟨cs1, hcs⟩ := startsWithL_cons h
      simp only [pyDeniedB, hcs]
      rfl
  | vnone => simp [pyDeniedB]
  | vint n => simp [pyDeniedB]

theorem joinLoop_spec (n : Nat) : ∀ st : St,
    ∃ (b : Bool) (ds : List String) (dr : List (Nat × PyVal)),
      (joinLoop n st).1 = Except.ok b ∧
      (joinLoop n st).2.sent = st.sent ++ ds ∧
      (∀ c ∈ ds, c = "mac join otaa") ∧ ds.length ≤ n ∧
      (joinLoop n st).2.reads = st.reads ++ dr ∧
      (b = true ↔ ∃ x ∈ dr, x.1 = 30000 ∧ pyAcceptedB x.2 = true) ∧
      (∀ x ∈ dr, x.1 = 30000 → pyDeniedB x.2 = true →
        b = false ∧ dr.getLast? = some x) := by
  induction n with
  | zero =>
      intro st
      exact ⟨false, [], [], rfl, by simp [joinLoop, run_pure], by simp, by simp,
        by simp [joinLoop, run_pure], by simp, by simp⟩
  | succ n ih =>
      intro st
      by_cases hacc : pyAcceptedB (rdOf st.inp.tail.head?) = true
      · rw [joinLoop_succ, if_pos hacc]
        refine ⟨true, ["mac join otaa"],
          [(2000, rdOf st.inp.head?), (30000, rdOf st.inp.tail.head?)],
          rfl, by simp [joinAttemptSt], by simp, by simp, by simp [joinAttemptSt], ?_, ?_⟩
        · exact ⟨fun _ => ⟨(30000, rdOf st.inp.tail.head?), by simp, rfl, hacc⟩, fun _ => rfl⟩
        · intro x hx h30 hden
          rcases List.mem_pair.1 hx with rfl | rfl
          · exact absurd (show (2000 : Nat) = 30000 from h30) (by decide)
          · have hden2 : pyDeniedB (rdOf st.inp.tail.head?) = true := hden
            exact absurd hden2 (by rw [accepted_not_denied hacc]; simp)
      · by_cases hden : pyDeniedB (rdOf st.inp.tail.head?) = true
        · rw [joinLoop_succ, if_neg hacc, if_pos hden]
          refine ⟨false, ["mac join otaa"],
            [(2000, rdOf st.inp.head?), (30000, rdOf st.inp.tail.head?)],
            rfl, by simp [joinAttemptSt], by simp, by simp, by simp [joinAttemptSt], ?_, ?_⟩
          · simp only [Bool.false_eq_true, false_iff]
            rintro ⟨x, hx, h30, hxacc⟩
            rcases List.mem_pair.1 hx with rfl | rfl
            · exact absurd (show (2000 : Nat) = 30000 from h30) (by decide)
            · exact absurd (show pyAcceptedB (rdOf st.inp.tail.head?) = true from hxacc) hacc
          · intro x hx h30 hxden
            rcases List.mem_pair.1 hx with rfl | rfl
            · exact absurd (show (2000 : Nat) = 30000 from h30) (by decide)
            · exact ⟨rfl, rfl⟩
        · rw [joinLoop_succ, if_neg hacc, if_neg hden]
          obtain ⟨b, ds1, dr1, p1, p2, p3, p4, p5, p6, p7⟩ := ih (joinRetrySt st)
          refine ⟨b, "mac join otaa" :: ds1,
            (2000, rdOf st.inp.head?) :: (30000, rdOf st.inp.tail.head?) :: dr1,
            p1, ?_, ?_, ?_, ?_, ?_, ?_⟩
          · rw [p2]
            simp [joinRetrySt, joinAttemptSt]
          · intro c hc
            rcases List.mem_cons.1 hc with rfl | hc
            · rfl
            · exact p3 c hc
          · simp only [List.length_cons]
            omega
          · rw [p5]
            simp [joinRetrySt, joinAttemptSt]
          · rw [p6]
            constructor
            · rintro ⟨x, hx, h30, hxacc⟩
              exact ⟨x, by simp [hx], h30, hxacc⟩
            · rintro ⟨x, hx, h30, hxacc⟩
              rcases List.mem_cons.1 hx with rfl | hx
              · exact absurd (show (2000 : Nat) = 30000 from h30) (by decide)
              · rcases List.mem_cons.1 hx with rfl | hx
                · exact absurd (show pyAcceptedB (rdOf st.inp.tail.head?) = true from hxacc) hacc
                · exact ⟨x, hx, h30, hxacc⟩
          · intro x hx h30 hxden
            rcases List.mem_cons.1 hx with rfl | hx
            · exact absurd (show (2000 : Nat) = 30000 from h30) (by decide)
            · rcases List.mem_cons.1 hx with rfl | hx
              · exact absurd (show pyDeniedB (rdOf st.inp.tail.head?) = true from hxden) hden
              · obtain ⟨hb, hlast⟩ := p7 x hx h30 hxden
                refine ⟨hb, ?_⟩
                have hne : dr1 ≠ [] := by
                  intro hnil
                  rw [hnil] at hx
                  exact absurd hx (List.not_mem_nil x)
                rw [show (2000, rdOf st.inp.head?) :: (30000, rdOf st.inp.tail.head?) :: dr1 =
                  [(2000, rdOf st.inp.head?), (30000, rdOf st.inp.tail.head?)] ++ dr1 from rfl]
                rw [List.getLast?_append, hlast]
                rfl

theorem quiet_ite {α : Type} {c : Prop} [Decidable c] {m1 m2 : M α}
    (h1 : Quiet2000 m1) (h2 : Quiet2000 m2) : Quiet2000 (if c then m1 else m2) := by
  by_cases hc : c
  · simpa [hc] using h1
  · simpa [hc] using h2

theorem quiet_set_retransmissions (n : PyVal) : Quiet2000 (set_retransmissions n) := by
  unfold set_retransmissions
  refine quiet_bind (quiet_send _ _ (append_ne_join "mac set retx " (pyStr n) 's'
    (by decide) (by decide))) fun _ => ?_
  refine quiet_bind (quiet_read 2000 rfl) fun r => ?_
  exact quiet_ite (quiet_throwE _) (quiet_pure _)

theorem quiet_set_ar (state : PyVal) : Quiet2000 (set_ar state) := by
  unfold set_ar
  refine quiet_bind_post (fun c => ∃ t, c = "mac set ar " ++ t) ?_ ?_ ?_
  · cases state with
    | vstr t => exact quiet_pure _
    | vnone => exact quiet_throwE _
    | vint n => exact quiet_throwE _
  · intro st a st1 hrun
    cases state with
    | vstr t =>
        refine ⟨t, ?_⟩
        have heq : (Except.ok ("mac set ar " ++ t), st) = (Except.ok a, st1) := hrun
        exact (Except.ok.inj (congrArg Prod.fst heq)).symm
    | vnone => exact absurd hrun (by simp [pyAddStr, run_throwE])
    | vint n => exact absurd hrun (by simp [pyAddStr, run_throwE])
  · rintro c ⟨t, rfl⟩
    refine quiet_bind (quiet_send _ _ (append_ne_join "mac set ar " t 's' (by decide) (by decide)))
      fun _ => ?_
    refine quiet_bind (quiet_send "mac get ar" false (by decide)) fun _ => ?_
    refine quiet_bind (quiet_read 2000 rfl) fun a => ?_
    refine quiet_bind (quiet_modifyG _ (fun st => rfl) (fun st => rfl)) fun _ => ?_
    exact quiet_ite (quiet_throwE _) (quiet_pure _)

theorem quiet_set_config : Quiet2000 set_config := by
  unfold set_config
  refine quiet_bind quiet_getSt fun g => ?_
  refine quiet_bind (quiet_sendSet "mac set appeui " g.appeui 's' (by decide) (by decide)) fun _ => ?_
  refine quiet_bind (quiet_sendSet "mac set appkey " g.appkey 's' (by decide) (by decide)) fun _ => ?_
  refine quiet_bind (quiet_sendSet "mac set deveui " g.deveui 's' (by decide) (by decide)) fun _ => ?_
  refine quiet_bind (quiet_sendSet "mac set pwridx " g.pwridx 's' (by decide) (by decide)) fun _ => ?_
  refine quiet_bind (quiet_sendSet "mac set adr " g.adr 's' (by decide) (by decide)) fun _ => ?_
  refine quiet_bind (quiet_sendSet "mac set rx2 " g.rx2 's' (by decide) (by decide)) fun _ => ?_
  refine quiet_bind quiet_getSt fun g2 => ?_
  refine quiet_bind (quiet_set_retransmissions g2.retx) fun _ => ?_
  refine quiet_bind quiet_getSt fun g3 => ?_
  refine quiet_bind (quiet_set_ar g3.ar) fun _ => ?_
  exact quiet_send "mac save" true (by decide)

/-! ## Claim theorems -/

/-- C1: `join()` issues at most 3 `mac join otaa` dispatches; it returns
`true` iff one of the extended-timeout (30000 ms) reads yields a line
starting with `accepted`; and when an extended-timeout read yields a
line starting with `denied` the call returns `false` immediately — that
read is the last read performed, so no further join attempt follows. -/
theorem join_max3_accept_iff_denied_stops (st : St) (b : Bool) (st2 : St)
    (h : join st = (Except.ok b, st2)) :
    (∃ ds, st2.sent = st.sent ++ ds ∧ List.count "mac join otaa" ds ≤ 3) ∧
    (∃ dr, st2.reads = st.reads ++ dr ∧
      (b = true ↔ ∃ x ∈ dr, x.1 = 30000 ∧ pyAcceptedB x.2 = true) ∧
      (∀ x ∈ dr, x.1 = 30000 → pyDeniedB x.2 = true →
        b = false ∧ dr.getLast? = some x)) := by
  have h1 : join st = (set_config >>= fun _ => joinLoop 3) (resetSt st) := rfl
  have hRsent : (resetSt st).sent = st.sent ++ ["mac reset 868"] := rfl
  have hRreads : (resetSt st).reads = st.reads ++ [(2000, rdOf st.inp.head?)] := rfl
  rcases hsc : set_config (resetSt st) with ⟨r, stC⟩
  cases r with
  | error e =>
      rw [h1, run_bind, hsc] at h
      exact absurd (congrArg Prod.fst h) (by simp)
  | ok u =>
      rw [h1, run_bind, hsc] at h
      obtain ⟨ds0, dr0, q1, q2, q3, q4⟩ := quiet_set_config (resetSt st)
      rw [hsc] at q1 q3
      replace q1 : stC.sent = (resetSt st).sent ++ ds0 := q1
      replace q3 : stC.reads = (resetSt st).reads ++ dr0 := q3
      obtain ⟨b1, ds1, dr1, p1, p2, p3, p4, p5, p6, p7⟩ := joinLoop_spec 3 stC
      have hb : b1 = b := by
        have hfst := congrArg Prod.fst h
        simp only at hfst
        rw [p1] at hfst
        exact Except.ok.inj hfst
      have hst2 : (joinLoop 3 stC).2 = st2 := congrArg Prod.snd h
      subst hb
      constructor
      · refine ⟨["mac reset 868"] ++ ds0 ++ ds1, ?_, ?_⟩
        · rw [← hst2, p2, q1, hRsent]
          simp [List.append_assoc]
        · rw [List.count_append, List.count_append]
          have c1 : List.count "mac join otaa" ["mac reset 868"] = 0 := by decide
          have c2 : List.count "mac join otaa" ds0 = 0 :=
            List.count_eq_zero.2 (fun hmem => q2 _ hmem rfl)
          have c3 : List.count "mac join otaa" ds1 ≤ 3 :=
            le_trans (List.count_le_length _ _) p4
          omega
      · refine ⟨[(2000, rdOf st.inp.head?)] ++ dr0 ++ dr1, ?_, ?_, ?_⟩
        · rw [← hst2, p5, q3, hRreads]
          simp [List.append_assoc]
        · rw [p6]
          constructor
          · rintro ⟨x, hx, h30, hxacc⟩
            exact ⟨x, by simp [hx], h30, hxacc⟩
          · rintro ⟨x, hx, h30, hxacc⟩
            rcases List.mem_append.1 hx with hx | hx
            · rcases List.mem_append.1 hx with hx | hx
              · rcases List.mem_singleton.1 hx with rfl
                exact absurd (show (2000 : Nat) = 30000 from h30) (by decide)
              · exact absurd (h30 ▸ q4 x hx) (by omega)
            · exact ⟨x, hx, h30, hxacc⟩
        · intro x hx h30 hxden
          rcases List.mem_append.1 hx with hmem | hmem
          · rcases List.mem_append.1 hmem with hmem | hmem
            · rcases List.mem_singleton.1 hmem with rfl
              exact absurd (show (2000 : Nat) = 30000 from h30) (by decide)
            · exact absurd (h30 ▸ q4 x hmem) (by omega)
          · obtain ⟨hb2, hlast⟩ := p7 x hmem h30 hxden
            refine ⟨hb2, ?_⟩
            rw [List.getLast?_append, hlast]
            rfl

/-- C1 witness: a concrete configured run in which the module accepts
the first join attempt; the join-bound theorem applies to it. -/
theorem join_max3_accept_iff_denied_stops_witness :
    (∃ ds, ((join (cfgSt joinAcceptInp)).2).sent = (cfgSt joinAcceptInp).sent ++ ds ∧
      List.count "mac join otaa" ds ≤ 3) ∧
    (∃ dr, ((join (cfgSt joinAcceptInp)).2).reads = (cfgSt joinAcceptInp).reads ++ dr ∧
      (true = true ↔ ∃ x ∈ dr, x.1 = 30000 ∧ pyAcceptedB x.2 = true) ∧
      (∀ x ∈ dr, x.1 = 30000 → pyDeniedB x.2 = true →
        true = false ∧ dr.getLast? = some x)) :=
  join_max3_accept_iff_denied_stops (cfgSt joinAcceptInp) true
    ((join (cfgSt joinAcceptInp)).2)
    (by simp [join, set_config, sendSet, set_retransmissions, set_ar, get_hweui, joinLoop,
      cfgSt, mkSt, joinAcceptInp, pyAddStr, pyStr, pyStartswith, startsWithL, rdOf,
      Bind.bind, instMonadM, _read, _send, _sleep, modifySt, getSt, throwE, pure])

/-! ## Transmit loop characterization -/

theorem txLoop_busy_step (cmd : String) (n : Nat) (st : St)
    (h : st.inp.head? = some (some "busy")) :
    txLoop cmd (n + 1) st = txLoop cmd n (txBusyStep cmd st) := by
  simp [txLoop, run_bind, run_send_false, run_read, run_sleep, run_pure, rdOf, h, txBusyStep]

theorem txLoop_err_step (cmd : String) (n : Nat) (st : St)
    (h1 : rdOf st.inp.head? ≠ PyVal.vstr "ok") (h2 : rdOf st.inp.head? ≠ PyVal.vstr "busy") :
    txLoop cmd (n + 1) st = (Except.error Err.rn2483Exception, txAttempt1St cmd st) := by
  simp only [txLoop, run_bind, run_send_false, run_read, run_pure]
  rw [if_neg h1, if_pos h2]
  rfl

theorem txLoop_ok_step (cmd : String) (n : Nat) (st : St)
    (h : st.inp.head? = some (some "ok")) :
    txLoop cmd (n + 1) st =
      ((match rdOf st.inp.tail.head? with
        | PyVal.vstr s =>
            if s = "mac_tx_ok" ∨ s = "radio_tx_ok" then Except.ok TxResult.tTrue
            else if startsWithL "mac_rx".data s.data then
              match _base16tobytearray (lastField s.data) with
              | Except.ok bs => Except.ok (TxResult.tPair bs)
              | Except.error e => Except.error e
            else Except.error Err.rn2483Exception
        | _ => Except.error Err.attributeError), txOkSt cmd st) := by
  rcases h1 : st.inp.tail.head? with _ | os
  · simp [txLoop, run_bind, run_send_false, run_read, run_pure, run_throwE, rdOf, h, h1, txOkSt]
  · rcases os with _ | s
    · simp [txLoop, run_bind, run_send_false, run_read, run_pure, run_throwE, rdOf, h, h1, txOkSt]
    · by_cases htx : s = "mac_tx_ok" ∨ s = "radio_tx_ok"
      · simp [txLoop, run_bind, run_send_false, run_read, run_pure, run_throwE, rdOf, h, h1,
          txOkSt, htx]
      · by_cases hrx : startsWithL ['m', 'a', 'c', '_', 'r', 'x'] s.data = true
        · rcases hdec : _base16tobytearray (lastField s.data) with e | bs
          · simp [txLoop, run_bind, run_send_false, run_read, run_pure, run_throwE, rdOf, h, h1,
              txOkSt, htx, hrx, hdec]
          · simp [txLoop, run_bind, run_send_false, run_read, run_pure, run_throwE, rdOf, h, h1,
              txOkSt, htx, hrx, hdec]
        · simp [txLoop, run_bind, run_send_false, run_read, run_pure, run_throwE, rdOf, h, h1,
            txOkSt, htx, hrx]

theorem txLoop_count (cmd : String) : ∀ (n : Nat) (st : St),
    ∃ k, k ≤ n ∧ (txLoop cmd n st).2.sent = st.sent ++ List.replicate k cmd := by
  intro n
  induction n with
  | zero =>
      intro st
      exact ⟨0, Nat.le_refl 0, by simp [txLoop, run_pure]⟩
  | succ n ih =>
      intro st
      rcases h : st.inp.head? with _ | os
      · rw [txLoop_err_step cmd n st (by simp [rdOf, h]) (by simp [rdOf, h])]
        exact ⟨1, by omega, by simp [txAttempt1St]⟩
      · rcases os with _ | s
        · rw [txLoop_err_step cmd n st (by simp [rdOf, h]) (by simp [rdOf, h])]
          exact ⟨1, by omega, by simp [txAttempt1St]⟩
        · by_cases hok : s = "ok"
          · subst hok
            rw [txLoop_ok_step cmd n st h]
            exact ⟨1, by omega, by simp [txOkSt]⟩
          · by_cases hbusy : s = "busy"
            · subst hbusy
              rw [txLoop_busy_step cmd n st h]
              obtain ⟨k, hk, hs⟩ := ih (txBusyStep cmd st)
              refine ⟨k + 1, by omega, ?_⟩
              rw [hs]
              simp [txBusyStep, List.replicate_succ, List.append_assoc]
            · rw [txLoop_err_step cmd n st (by simp [rdOf, h, hok]) (by simp [rdOf, h, hbusy])]
              exact ⟨1, by omega, by simp [txAttempt1St]⟩

theorem txLoop_all_busy (cmd : String) : ∀ (n : Nat) (st : St) (rest : List (Option String)),
    st.inp = List.replicate n (some "busy") ++ rest →
    txLoop cmd n st = (Except.ok TxResult.tNone,
      { st with inp := rest, sent := st.sent ++ List.replicate n cmd,
                reads := st.reads ++ List.replicate n ((2000 : Nat), PyVal.vstr "busy"),
                sleeps := st.sleeps ++ List.replicate n 1000 }) := by
  intro n
  induction n with
  | zero =>
      intro st rest h
      obtain ⟨inp, sent, reads, sleeps, g1, g2, g3, g4, g5, g6, g7, g8⟩ := st
      simp only [List.replicate, List.nil_append] at h
      subst h
      simp [txLoop, run_pure]
  | succ n ih =>
      intro st rest h
      rw [List.replicate_succ, List.cons_append] at h
      have hhead : st.inp.head? = some (some "busy") := by rw [h]; rfl
      rw [txLoop_busy_step cmd n st hhead]
      have htail : (txBusyStep cmd st).inp = List.replicate n (some "busy") ++ rest := by
        simp [txBusyStep, h]
      rw [ih (txBusyStep cmd st) rest htail]
      obtain ⟨inp, sent, reads, sleeps, g1, g2, g3, g4, g5, g6, g7, g8⟩ := st
      simp [txBusyStep, List.replicate_succ, List.append_assoc]

theorem startsWithL_eq_append : ∀ {p cs : List Char}, startsWithL p cs = true →
    ∃ t, cs = p ++ t := by
  intro p
  induction p with
  | nil => exact fun {cs} _ => ⟨cs, rfl⟩
  | cons a p ih =>
      intro cs h
      cases cs with
      | nil => simp [startsWithL] at h
      | cons c cs1 =>
          simp only [startsWithL, Bool.and_eq_true, beq_iff_eq] at h
          obtain ⟨t, ht⟩ := ih h.2
          exact ⟨t, by rw [h.1, ht]; rfl⟩

/-- C7: `tx_uncnf`/`tx_cnf` issue at most 10 dispatches of their
command; and when the first 10 responses are all `busy`, `_tx` falls
through the loop returning the implicit `None` (`tNone`), neither
raising nor returning a success value, after exactly 10 dispatches. -/
theorem tx_attempt_bound_busy_fallthrough (d : Data) (cmd : String)
    (st stb : St) (rest : List (Option String))
    (hb : stb.inp = List.replicate 10 (some "busy") ++ rest) :
    (∃ k, k ≤ 10 ∧ (tx_uncnf d st).2.sent =
        st.sent ++ List.replicate k ("mac tx uncnf 1 " ++ String.mk (_base16encode d))) ∧
    (∃ k, k ≤ 10 ∧ (tx_cnf d st).2.sent =
        st.sent ++ List.replicate k ("mac tx cnf 1 " ++ String.mk (_base16encode d))) ∧
    ((_tx cmd stb).1 = Except.ok TxResult.tNone ∧
      (_tx cmd stb).2.sent = stb.sent ++ List.replicate 10 cmd) := by
  refine ⟨txLoop_count _ 10 st, txLoop_count _ 10 st, ?_⟩
  rw [show _tx cmd stb = txLoop cmd 10 stb from rfl, txLoop_all_busy cmd 10 stb rest hb]
  exact ⟨rfl, rfl⟩

/-- C7 witness: a concrete all-busy run. -/
theorem tx_attempt_bound_busy_fallthrough_witness :
    (∃ k, k ≤ 10 ∧ (tx_uncnf (Data.pbytes [1]) (mkSt [])).2.sent =
        (mkSt []).sent ++ List.replicate k
          ("mac tx uncnf 1 " ++ String.mk (_base16encode (Data.pbytes [1])))) ∧
    (∃ k, k ≤ 10 ∧ (tx_cnf (Data.pbytes [1]) (mkSt [])).2.sent =
        (mkSt []).sent ++ List.replicate k
          ("mac tx cnf 1 " ++ String.mk (_base16encode (Data.pbytes [1])))) ∧
    ((_tx "c" (mkSt (List.replicate 10 (some "busy")))).1 = Except.ok TxResult.tNone ∧
      (_tx "c" (mkSt (List.replicate 10 (some "busy")))).2.sent =
        (mkSt (List.replicate 10 (some "busy"))).sent ++ List.replicate 10 "c") :=
  tx_attempt_bound_busy_fallthrough (Data.pbytes [1]) "c" (mkSt [])
    (mkSt (List.replicate 10 (some "busy"))) [] (by simp [mkSt])

/-- C5 (corrected): in `join()` any non-terminal extended-read outcome —
in particular `Timeout` and `busy` — triggers the fixed 1000 ms backoff
sleep and a retry consuming one of the 3 attempts, and the join loop
never raises; in `_tx` a first-phase `busy` triggers the 1000 ms backoff
and a retry consuming one of the 10 attempts; but a first-phase
`Timeout` in `_tx` raises `rn2483Exception` immediately (no backoff, no
retry), contrary to the original claim. -/
theorem retry_backoff (n : Nat) (cmd : String) (st : St) :
    (∃ b, (joinLoop n st).1 = Except.ok b) ∧
    (pyAcceptedB (rdOf st.inp.tail.head?) = false →
      pyDeniedB (rdOf st.inp.tail.head?) = false →
      joinLoop (n + 1) st = joinLoop n (joinRetrySt st)) ∧
    (st.inp.head? = some (some "busy") →
      txLoop cmd (n + 1) st = txLoop cmd n (txBusyStep cmd st)) ∧
    (rdOf st.inp.head? = PyVal.vint (-1) →
      (txLoop cmd (n + 1) st).1 = Except.error Err.rn2483Exception ∧
      (txLoop cmd (n + 1) st).2.sent = st.sent ++ [cmd] ∧
      (txLoop cmd (n + 1) st).2.sleeps = st.sleeps) := by
  refine ⟨?_, ?_, ?_, ?_⟩
  · obtain ⟨b, ds, dr, p1, _⟩ := joinLoop_spec n st
    exact ⟨b, p1⟩
  · intro hacc hden
    rw [joinLoop_succ, if_neg (by rw [hacc]; simp), if_neg (by rw [hden]; simp)]
  · exact txLoop_busy_step cmd n st
  · intro h
    rw [txLoop_err_step cmd n st (by rw [h]; simp) (by rw [h]; simp)]
    exact ⟨rfl, rfl, rfl⟩

/-- C5 witness: concrete runs exercising each retained behaviour. -/
theorem retry_backoff_witness :
    joinLoop 1 (mkSt [some "x", none]) = joinLoop 0 (joinRetrySt (mkSt [some "x", none])) ∧
    txLoop "c" 1 (mkSt [some "busy"]) = txLoop "c" 0 (txBusyStep "c" (mkSt [some "busy"])) ∧
    ((txLoop "c" 1 (mkSt [])).1 = Except.error Err.rn2483Exception ∧
      (txLoop "c" 1 (mkSt [])).2.sent = (mkSt []).sent ++ ["c"] ∧
      (txLoop "c" 1 (mkSt [])).2.sleeps = (mkSt []).sleeps) :=
  ⟨(retry_backoff 0 "c" (mkSt [some "x", none])).2.1 rfl rfl,
   (retry_backoff 0 "c" (mkSt [some "busy"])).2.2.1 rfl,
   (retry_backoff 0 "c" (mkSt [])).2.2.2 rfl⟩

/-- C5 counterexample: with the very first transmit read timing out,
`_tx` raises `rn2483Exception` on attempt 1 — one dispatch, no backoff
sleep — rather than retrying the timeout as the claim states. -/
theorem tx_timeout_fatal_counterexample :
    (_tx "c" (mkSt [])).1 = Except.error Err.rn2483Exception ∧
    (_tx "c" (mkSt [])).2.sent = ["c"] ∧
    (_tx "c" (mkSt [])).2.sleeps = [] :=
  ⟨rfl, rfl, rfl⟩

/-- C2 (corrected): when the first-phase response is `ok`, exactly one
second read with the extended 30000 ms timeout is performed and no
further attempt is made; `mac_tx_ok`/`radio_tx_ok` second-phase lines
return `True`; a line starting with `mac_rx` returns `(True, bytes)`
where the bytes decode the line's last space-separated field; any other
second-phase line raises `rn2483Exception`; but a second-phase timeout
raises `AttributeError` (from `startswith` on the `-1` sentinel), not
the transmit-failure exception. -/
theorem tx_ok_second_phase (cmd : String) (n : Nat) (st : St) (rest : List (Option String))
    (h : st.inp = some "ok" :: rest) :
    ((txLoop cmd (n + 1) st).2.sent = st.sent ++ [cmd]) ∧
    ((txLoop cmd (n + 1) st).2.reads =
      st.reads ++ [(2000, PyVal.vstr "ok"), (30000, rdOf rest.head?)]) ∧
    (∀ s, rest.head? = some (some s) → (s = "mac_tx_ok" ∨ s = "radio_tx_ok") →
      (txLoop cmd (n + 1) st).1 = Except.ok TxResult.tTrue) ∧
    (∀ s bs, rest.head? = some (some s) →
      startsWithL "mac_rx".data s.data = true →
      _base16tobytearray (lastField s.data) = Except.ok bs →
      (txLoop cmd (n + 1) st).1 = Except.ok (TxResult.tPair bs)) ∧
    (∀ s, rest.head? = some (some s) →
      ¬(s = "mac_tx_ok" ∨ s = "radio_tx_ok") →
      startsWithL "mac_rx".data s.data = false →
      (txLoop cmd (n + 1) st).1 = Except.error Err.rn2483Exception) ∧
    ((rest.head? = none ∨ rest.head? = some none) →
      (txLoop cmd (n + 1) st).1 = Except.error Err.attributeError) := by
  have hh : st.inp.head? = some (some "ok") := by rw [h]; rfl
  have ht : st.inp.tail = rest := by rw [h]; rfl
  rw [txLoop_ok_step cmd n st hh, ht]
  refine ⟨by simp [txOkSt], by simp [txOkSt, ht], ?_, ?_, ?_, ?_⟩
  · intro s hs htx
    rw [hs]
    simp only [rdOf]
    rw [if_pos htx]
  · intro s bs hs hrx hdec
    have hne : ¬(s = "mac_tx_ok" ∨ s = "radio_tx_ok") := by
      rintro (rfl | rfl) <;>
        · obtain ⟨t, ht2⟩ := startsWithL_eq_append hrx
          simp at ht2
    rw [hs]
    simp only [rdOf]
    rw [if_neg hne, if_pos hrx, hdec]
  · intro s hs htx hrx
    rw [hs]
    simp only [rdOf]
    rw [if_neg htx, if_neg (by rw [hrx]; simp)]
  · rintro (hs | hs) <;> rw [hs] <;> rfl

/-- C2 witness: module replies `ok` then `mac_rx 1 48656c6c6f`; the call
returns success with the payload decoding to the bytes of `Hello`. -/
theorem tx_ok_second_phase_witness :
    ((txLoop "c" 10 (mkSt [some "ok", some "mac_rx 1 48656c6c6f"])).2.sent =
      (mkSt [some "ok", some "mac_rx 1 48656c6c6f"]).sent ++ ["c"]) ∧
    ((txLoop "c" 10 (mkSt [some "ok", some "mac_rx 1 48656c6c6f"])).2.reads =
      (mkSt [some "ok", some "mac_rx 1 48656c6c6f"]).reads ++
        [(2000, PyVal.vstr "ok"),
         (30000, rdOf ([some "mac_rx 1 48656c6c6f"] : List (Option String)).head?)]) ∧
    ((txLoop "c" 10 (mkSt [some "ok", some "mac_rx 1 48656c6c6f"])).1 =
      Except.ok (TxResult.tPair [72, 101, 108, 108, 111])) :=
  have T := tx_ok_second_phase "c" 9 (mkSt [some "ok", some "mac_rx 1 48656c6c6f"])
    [some "mac_rx 1 48656c6c6f"] rfl
  ⟨T.1, T.2.1, T.2.2.2.1 "mac_rx 1 48656c6c6f" [72, 101, 108, 108, 111] rfl (by decide) rfl⟩

/-- C2 counterexample: a second-phase timeout makes `_tx` raise
`AttributeError` (the `startswith` call on the `-1` timeout sentinel),
not the driver's transmit-failure exception. -/
theorem tx_second_phase_timeout_attr_error :
    (_tx "c" (mkSt [some "ok", none])).1 = Except.error Err.attributeError ∧
    (_tx "c" (mkSt [some "ok", none])).2.sent = ["c"] :=
  ⟨rfl, rfl⟩

/-! ## Hex codec -/

set_option maxRecDepth 4096 in
theorem encByte_all : ∀ x : Nat, x < 256 →
    (_2str (pyHexChars x)).length = 2 ∧
    (∀ c ∈ _2str (pyHexChars x), isLowerHex c = true) ∧
    pairParseOf (_2str (pyHexChars x)) = some (x : Int) := by decide

theorem decode_cons (a c : Char) (rest : List Char) (x : Nat)
    (hp : parse2 a c = some ((x : Nat) : Int)) (hx : x < 256) :
    _base16tobytearray (a :: c :: rest) =
      (_base16tobytearray rest).map (fun bs => x :: bs) := by
  have h0 : (0 : Int) ≤ (x : Int) := by exact_mod_cast Nat.zero_le x
  have h1 : ((x : Nat) : Int) < 256 := by exact_mod_cast hx
  have hb : toByteE ((x : Nat) : Int) = Except.ok x := by
    simp [toByteE, h0, h1]
  simp only [_base16tobytearray, hp, Bind.bind, Except.bind, hb]
  cases hres : _base16tobytearray rest <;> simp [hres, Except.map, pure, Except.pure]

/-- C3: hex round-trip on byte sequences — decoding the encoding gives
the bytes back; the encoding is exactly two characters per byte, all of
them lowercase hex digits, in input order. -/
theorem base16_roundtrip (b : List Nat) (h : ∀ x ∈ b, x < 256) :
    _base16tobytearray (_base16encode (Data.pbytes b)) = Except.ok b ∧
    (_base16encode (Data.pbytes b)).length = 2 * b.length ∧
    (∀ c ∈ _base16encode (Data.pbytes b), isLowerHex c = true) := by
  induction b with
  | nil => exact ⟨rfl, rfl, by simp [_base16encode, encodeLoop]⟩
  | cons x xs ih =>
      have hx : x < 256 := h x (List.mem_cons_self x xs)
      have hxs : ∀ y ∈ xs, y < 256 := fun y hy => h y (List.mem_cons_of_mem x hy)
      obtain ⟨ih1, ih2, ih3⟩ := ih hxs
      obtain ⟨hl, hhex, hp⟩ := encByte_all x hx
      obtain ⟨a, c, hac⟩ := List.length_eq_two.1 hl
      have hp2 : parse2 a c = some ((x : Nat) : Int) := by
        have := hp
        rw [hac] at this
        exact this
      have henc : _base16encode (Data.pbytes (x :: xs)) =
          a :: c :: _base16encode (Data.pbytes xs) := by
        show _2str (pyHexChars x) ++ encodeLoop xs = _
        rw [hac]
        rfl
      refine ⟨?_, ?_, ?_⟩
      · rw [henc, decode_cons a c _ x hp2 hx, ih1]
        rfl
      · rw [henc]
        simp only [List.length_cons]
        omega
      · rw [henc]
        intro ch hch
        rcases List.mem_cons.1 hch with rfl | hch
        · exact hhex ch (by rw [hac]; exact List.mem_cons_self _ _)
        · rcases List.mem_cons.1 hch with rfl | hch
          · exact hhex ch (by rw [hac]; simp)
          · exact ih3 ch hch

/-- C3 witness: the bytes of `Hello` round-trip. -/
theorem base16_roundtrip_witness :
    (∀ x ∈ [72, 101, 108, 108, 111], x < 256) ∧
    (_base16tobytearray (_base16encode (Data.pbytes [72, 101, 108, 108, 111])) =
        Except.ok [72, 101, 108, 108, 111] ∧
      (_base16encode (Data.pbytes [72, 101, 108, 108, 111])).length =
        2 * ([72, 101, 108, 108, 111] : List Nat).length ∧
      (∀ c ∈ _base16encode (Data.pbytes [72, 101, 108, 108, 111]), isLowerHex c = true)) :=
  ⟨by decide, base16_roundtrip [72, 101, 108, 108, 111] (by decide)⟩

/-- C8 (amended): the decoder examines only the consecutive
two-character groups of its input — an odd trailing character is
silently dropped, producing no error — and it raises ValueError exactly
when some group fails to parse as a base-16 integer in byte range
(otherwise it returns the decoded bytes).  `base16decodeSpec` states
that behaviour directly. -/
theorem base16_decode_eq_spec : ∀ cs : List Char, _base16tobytearray cs = base16decodeSpec cs
  | [] => rfl
  | [c] => rfl
  | c1 :: c2 :: rest => by
      have ih := base16_decode_eq_spec rest
      rcases hp : parse2 c1 c2 with _ | v
      · simp only [_base16tobytearray, base16decodeSpec, pairsOf, pairsBytes, byteOfPair, hp,
          Bind.bind, Except.bind]
      · by_cases hv : 0 ≤ v ∧ v < 256
        · simp only [_base16tobytearray, base16decodeSpec, pairsOf, pairsBytes, byteOfPair, hp,
            toByteE, if_pos hv, Bind.bind, Except.bind, ih]
          cases hpb : pairsBytes (pairsOf rest) <;>
            simp [hpb, base16decodeSpec, pure, Except.pure]
        · simp only [_base16tobytearray, base16decodeSpec, pairsOf, pairsBytes, byteOfPair, hp,
            toByteE, if_neg hv, Bind.bind, Except.bind]

/-- C8 counterexample: the odd-length input `"4"` decodes silently to an
empty byte string — no malformed-encoding error is raised. -/
theorem base16_decode_odd_silent : _base16tobytearray ['4'] = Except.ok [] := rfl

/-! ## Configuration -/

/-- C6: `config` assigns the identity fields only when they are still
unset — a second call with different credentials leaves the values
stored by the first call unchanged, silently ignoring the later
credentials. -/
theorem config_sticky (a1 k1 d1 a2 k2 d2 : String)
    (px1 ad1 rw1 rt1 ar1 px2 ad2 rw2 rt2 ar2 : PyVal) (st : St)
    (ha : st.appeui = PyVal.vnone) (hk : st.appkey = PyVal.vnone)
    (hd : st.deveui = PyVal.vnone) :
    ((config (.vstr a2) (.vstr k2) (.vstr d2) px2 ad2 rw2 rt2 ar2
        ((config (.vstr a1) (.vstr k1) (.vstr d1) px1 ad1 rw1 rt1 ar1 st).2)).2.appeui =
      PyVal.vstr a1) ∧
    ((config (.vstr a2) (.vstr k2) (.vstr d2) px2 ad2 rw2 rt2 ar2
        ((config (.vstr a1) (.vstr k1) (.vstr d1) px1 ad1 rw1 rt1 ar1 st).2)).2.appkey =
      PyVal.vstr k1) ∧
    ((config (.vstr a2) (.vstr k2) (.vstr d2) px2 ad2 rw2 rt2 ar2
        ((config (.vstr a1) (.vstr k1) (.vstr d1) px1 ad1 rw1 rt1 ar1 st).2)).2.deveui =
      PyVal.vstr d1) := by
  have h1 : (config (.vstr a1) (.vstr k1) (.vstr d1) px1 ad1 rw1 rt1 ar1 st).2 =
      { st with appeui := .vstr a1, appkey := .vstr k1, deveui := .vstr d1,
                pwridx := .vstr "1", adr := .vstr "off", rx2 := .vstr "3 869525000",
                retx := .vint 5, ar := .vstr "off" } := by
    simp [config, run_bind, run_getSt, run_modifySt, run_pure, ha, hk, hd]
  rw [h1]
  simp [config, run_bind, run_getSt, run_modifySt, run_pure]

/-- C6 witness: two concrete configuration calls; the second call's
credentials are ignored. -/
theorem config_sticky_witness :
    ((config (.vstr "A2") (.vstr "K2") (.vstr "D2") (.vstr "9") (.vstr "on")
        (.vstr "0 0") (.vint 7) (.vstr "on")
        ((config (.vstr "A1") (.vstr "K1") (.vstr "D1") (.vstr "1") (.vstr "off")
          (.vstr "3 869525000") (.vint 5) (.vstr "off") (mkSt [])).2)).2.appeui =
      PyVal.vstr "A1") ∧
    ((config (.vstr "A2") (.vstr "K2") (.vstr "D2") (.vstr "9") (.vstr "on")
        (.vstr "0 0") (.vint 7) (.vstr "on")
        ((config (.vstr "A1") (.vstr "K1") (.vstr "D1") (.vstr "1") (.vstr "off")
          (.vstr "3 869525000") (.vint 5) (.vstr "off") (mkSt [])).2)).2.appkey =
      PyVal.vstr "K1") ∧
    ((config (.vstr "A2") (.vstr "K2") (.vstr "D2") (.vstr "9") (.vstr "on")
        (.vstr "0 0") (.vint 7) (.vstr "on")
        ((config (.vstr "A1") (.vstr "K1") (.vstr "D1") (.vstr "1") (.vstr "off")
          (.vstr "3 869525000") (.vint 5) (.vstr "off") (mkSt [])).2)).2.deveui =
      PyVal.vstr "D1") :=
  config_sticky "A1" "K1" "D1" "A2" "K2" "D2"
    (.vstr "1") (.vstr "off") (.vstr "3 869525000") (.vint 5) (.vstr "off")
    (.vstr "9") (.vstr "on") (.vstr "0 0") (.vint 7) (.vstr "on")
    (mkSt []) rfl rfl rfl

/-- C10 (implicit): whatever radio-parameter arguments a caller passes,
`config` stores the fixed defaults — the `pwridx`, `adr`, `rx2`, `retx`
and `ar` arguments are never read. -/
theorem config_radio_defaults (ae ak de px ad rw rt arv : PyVal) (st : St) :
    ((config ae ak de px ad rw rt arv st).2.pwridx = PyVal.vstr "1") ∧
    ((config ae ak de px ad rw rt arv st).2.adr = PyVal.vstr "off") ∧
    ((config ae ak de px ad rw rt arv st).2.rx2 = PyVal.vstr "3 869525000") ∧
    ((config ae ak de px ad rw rt arv st).2.retx = PyVal.vint 5) ∧
    ((config ae ak de px ad rw rt arv st).2.ar = PyVal.vstr "off") := by
  by_cases c1 : st.appeui = PyVal.vnone <;> by_cases c2 : st.appkey = PyVal.vnone <;>
    by_cases c3 : st.deveui = PyVal.vnone <;> by_cases c4 : de = PyVal.vnone <;>
    simp [config, run_bind, run_getSt, run_modifySt, run_pure, get_hweui, run_send_false,
      run_read, c1, c2, c3, c4]

/-! ## Pause/resume bracketing -/

/-- C9: in `get_snr` and `get_pwr`, whenever the pause response is not
`'0'`, the commands written are exactly pause, the radio get, and
`mac resume` — one resume per successful pause on every exit path
(return, failed-resume raise, and the int-parse raise all occur after
the resume has been sent). -/
theorem pause_resume_bracketing (st : St) (h : st.inp.head? ≠ some (some "0")) :
    (get_snr st).2.sent = st.sent ++ ["mac pause", "radio get snr", "mac resume"] ∧
    (get_pwr st).2.sent = st.sent ++ ["mac pause", "radio get pwr", "mac resume"] ∧
    List.count "mac resume" ["mac pause", "radio get snr", "mac resume"] = 1 ∧
    List.count "mac resume" ["mac pause", "radio get pwr", "mac resume"] = 1 := by
  have ht : rdOf st.inp.head? ≠ PyVal.vstr "0" := by
    rcases hh : st.inp.head? with _ | os
    · simp [rdOf]
    · rcases os with _ | s
      · simp [rdOf]
      · simp only [rdOf, ne_eq, PyVal.vstr.injEq]
        intro hs
        exact h (by rw [hh, hs])
  refine ⟨?_, ?_, by decide, by decide⟩
  · simp only [get_snr, _pause, _resume, pyInt, Bind.bind, instMonadM, getSt, modifySt, throwE,
      _send, _read, _sleep, pure]
    simp [ht]
    split
    · rcases hsnr : rdOf st.inp[1]? with _ | nv | sv
      · simp [hsnr, throwE]
      · simp [hsnr]
      · rcases hp : pyIntOfString sv with _ | nv2 <;> simp [hsnr, hp, throwE]
    · simp
  · simp only [get_pwr, _pause, _resume, pyInt, Bind.bind, instMonadM, getSt, modifySt, throwE,
      _send, _read, _sleep, pure]
    simp [ht]
    split
    · rcases hsnr : rdOf st.inp[1]? with _ | nv | sv
      · simp [hsnr, throwE]
      · simp [hsnr]
      · rcases hp : pyIntOfString sv with _ | nv2 <;> simp [hsnr, hp, throwE]
    · simp

/-- C9 witness: a concrete run (pause grants 4567 ms, reading a value,
resume acknowledged). -/
theorem pause_resume_bracketing_witness :
    (get_snr (mkSt [some "4567", some "-12", some "ok"])).2.sent =
      (mkSt [some "4567", some "-12", some "ok"]).sent ++
        ["mac pause", "radio get snr", "mac resume"] ∧
    (get_pwr (mkSt [some "4567", some "-12", some "ok"])).2.sent =
      (mkSt [some "4567", some "-12", some "ok"]).sent ++
        ["mac pause", "radio get pwr", "mac resume"] ∧
    List.count "mac resume" ["mac pause", "radio get snr", "mac resume"] = 1 ∧
    List.count "mac resume" ["mac pause", "radio get pwr", "mac resume"] = 1 :=
  pause_resume_bracketing (mkSt [some "4567", some "-12", some "ok"]) (by simp [mkSt])

/-! ## set_config checking -/

/-- C4 (corrected): during `set_config` only two acknowledgements are
verified — a response other than `ok` to `mac set retx` raises
`rn2483Exception`, and an `ar` read-back differing from the requested
state raises `rn2483Exception`.  The responses to the `appeui`,
`appkey`, `deveui`, `pwridx`, `adr` and `rx2` set commands, to the
`mac set ar` command itself, and to `mac save` are read and discarded
without any check: whatever they are, `set_config` completes
successfully (all ten commands dispatched) as long as the two verified
steps pass. -/
theorem set_config_checks (a k d px ad r2v arv : String) (nv : Int)
    (i1 i2 i3 i4 i5 i6 r7 i8 r9 i10 : Option String) (rest : List (Option String)) (st : St)
    (ha : st.appeui = .vstr a) (hk : st.appkey = .vstr k) (hd : st.deveui = .vstr d)
    (hp : st.pwridx = .vstr px) (hadr : st.adr = .vstr ad) (hrx : st.rx2 = .vstr r2v)
    (hretx : st.retx = .vint nv) (har : st.ar = .vstr arv)
    (hinp : st.inp = [i1, i2, i3, i4, i5, i6, r7, i8, r9, i10] ++ rest) :
    (r7 = some "ok" → r9 = some arv →
      (set_config st).1 = Except.ok () ∧
      (set_config st).2.sent = st.sent ++
        ["mac set appeui " ++ a, "mac set appkey " ++ k, "mac set deveui " ++ d,
         "mac set pwridx " ++ px, "mac set adr " ++ ad, "mac set rx2 " ++ r2v,
         "mac set retx " ++ toString nv, "mac set ar " ++ arv, "mac get ar", "mac save"]) ∧
    (r7 ≠ some "ok" → (set_config st).1 = Except.error Err.rn2483Exception) ∧
    (r7 = some "ok" → r9 ≠ some arv →
      (set_config st).1 = Except.error Err.rn2483Exception) := by
  refine ⟨?_, ?_, ?_⟩
  · rintro rfl rfl
    constructor <;>
      simp [set_config, sendSet, set_retransmissions, set_ar, pyAddStr, pyStr, getSt, modifySt,
        throwE, _send, _read, Bind.bind, instMonadM, pure, ha, hk, hd, hp, hadr, hrx, hretx, har,
        hinp, rdOf]
  · intro h7
    have hf : rdOf (some r7) ≠ PyVal.vstr "ok" := by
      rcases r7 with _ | s
      · simp [rdOf]
      · simp only [rdOf, ne_eq, PyVal.vstr.injEq]
        intro hs
        exact h7 (by rw [hs])
    simp [set_config, sendSet, set_retransmissions, set_ar, pyAddStr, pyStr, getSt, modifySt,
      throwE, _send, _read, Bind.bind, instMonadM, pure, ha, hk, hd, hp, hadr, hrx, hretx, har,
      hinp, hf]
  · rintro rfl h9
    have hok : rdOf (some (some "ok")) = PyVal.vstr "ok" := rfl
    have hf : rdOf (some r9) ≠ PyVal.vstr arv := by
      rcases r9 with _ | s
      · simp [rdOf]
      · simp only [rdOf, ne_eq, PyVal.vstr.injEq]
        intro hs
        exact h9 (by rw [hs])
    simp [set_config, sendSet, set_retransmissions, set_ar, pyAddStr, pyStr, getSt, modifySt,
      throwE, _send, _read, Bind.bind, instMonadM, pure, ha, hk, hd, hp, hadr, hrx, hretx, har,
      hinp, hf, hok]

/-- C4 witness: with every unchecked response deliberately junk but the
two verified steps passing, `set_config` completes; and concrete failing
retx / ar read-backs raise. -/
theorem set_config_checks_witness :
    ((set_config (cfgSt ([some "junk1", some "junk2", some "junk3", some "junk4",
        some "junk5", some "junk6", some "ok", some "junk8", some "off", some "junk10"] ++ []))).1 =
        Except.ok () ∧
      (set_config (cfgSt ([some "junk1", some "junk2", some "junk3", some "junk4",
        some "junk5", some "junk6", some "ok", some "junk8", some "off", some "junk10"] ++ []))).2.sent =
        (cfgSt ([some "junk1", some "junk2", some "junk3", some "junk4",
          some "junk5", some "junk6", some "ok", some "junk8", some "off", some "junk10"] ++ [])).sent ++
        ["mac set appeui " ++ "AE", "mac set appkey " ++ "AK", "mac set deveui " ++ "DE",
         "mac set pwridx " ++ "1", "mac set adr " ++ "off", "mac set rx2 " ++ "3 869525000",
         "mac set retx " ++ toString (5 : Int), "mac set ar " ++ "off", "mac get ar", "mac save"]) :=
  (set_config_checks "AE" "AK" "DE" "1" "off" "3 869525000" "off" 5
    (some "junk1") (some "junk2") (some "junk3") (some "junk4") (some "junk5") (some "junk6")
    (some "ok") (some "junk8") (some "off") (some "junk10") []
    (cfgSt ([some "junk1", some "junk2", some "junk3", some "junk4",
      some "junk5", some "junk6", some "ok", some "junk8", some "off", some "junk10"] ++ []))
    rfl rfl rfl rfl rfl rfl rfl rfl rfl).1 rfl rfl

/-- C4 counterexample: the module answers `invalid_param` to the
`mac set appeui` command, yet `set_config` raises nothing and completes
— the non-acknowledged set command is silently accepted (the response
is consumed, as the read log shows). -/
theorem set_config_silent_nonok :
    (set_config (cfgSt [some "invalid_param", some "ok", some "ok", some "ok", some "ok",
        some "ok", some "ok", some "ok", some "off", some "ok"])).1 = Except.ok () ∧
    (set_config (cfgSt [some "invalid_param", some "ok", some "ok", some "ok", some "ok",
        some "ok", some "ok", some "ok", some "off", some "ok"])).2.reads.head? =
      some (2000, PyVal.vstr "invalid_param") := by
  constructor <;>
    simp [set_config, sendSet, set_retransmissions, set_ar, pyAddStr, pyStr, getSt, modifySt,
      throwE, _send, _read, Bind.bind, instMonadM, pure, cfgSt, mkSt, rdOf]

end RN2483
